import Mathlib

/-!
Verification development for the clover route-handler library.

The definitions below are a shallow embedding of the request-handling
pipeline and its OpenAPI projection:

* `src/packages/clover/src/server.ts` (current revision: the refactored
  `makeRequestHandler` with `extractRawInput`, `handleAuthentication`,
  `validateInput`, the construction-time path-parameter check, and
  fail-closed authentication),
* `src/packages/clover/src/openapi.ts` (`buildOpenAPIPathsObject`),
* `src/responses.ts` (`commonReponses`, as shipped in the compiled bundle),
* the path utilities of `src/utils.ts` (`getKeysFromPathPattern`,
  `getParamsFromPath` via path-to-regexp style segment matching, and
  `toOpenAPIPath`).

JSON values are modelled by `JValue`; JavaScript objects by association
lists (`Record`); the JS object spread `{...a, ...b}` by `spreadMerge`;
asynchronous capabilities (`authenticate`, `run`) by total functions
returning an explicit outcome (resolution, denial, or thrown error); the
logger and the points at which the handler invokes external capabilities
by an event trace that the handler returns alongside the response.
-/

namespace Clover

/-- JSON values (the values request bodies, responses and schema
descriptions are built from). -/
inductive JValue where
  | vNull
  | vBool (b : Bool)
  | vNum (n : Int)
  | vStr (s : String)
  | vArr (elems : List JValue)
  | vObj (fields : List (String × JValue))

/-- A JavaScript object, as a field-name/value association list. -/
abbrev Record := List (String × JValue)

/-- JS property lookup on a plain object (first binding wins; the records
built by the pipeline have unique keys). -/
def lookupField (r : Record) (k : String) : Option JValue :=
  match r with
  | [] => none
  | (k', v) :: rest => if k' = k then some v else lookupField rest k

/-- The JS object spread `{...a, ...b}`: keys of `a` in order, with any
same-named key of `b` overriding the value, followed by the keys of `b`
that are not in `a`.  Later spreads win. -/
def spreadMerge (a b : Record) : Record :=
  a.map (fun kv => (kv.fst, (lookupField b kv.fst).getD kv.snd)) ++
    b.filter (fun kv => (lookupField a kv.fst).isNone)

/-- HTTP methods supported by the route factory (`HTTPMethod` in
`utils.ts`). -/
inductive HTTPMethod where
  | GET
  | POST
  | PUT
  | PATCH
  | DELETE
deriving DecidableEq, Repr

/-- The wire name of a method (`"GET"`, ...), what `request.method`
is compared against. -/
def methodName : HTTPMethod → String
  | .GET => "GET"
  | .POST => "POST"
  | .PUT => "PUT"
  | .PATCH => "PATCH"
  | .DELETE => "DELETE"

/-- Model of `method.toLowerCase()` as used for the OpenAPI path-item key. -/
def methodLowercase : HTTPMethod → String
  | .GET => "get"
  | .POST => "post"
  | .PUT => "put"
  | .PATCH => "patch"
  | .DELETE => "delete"

/-- Model of `httpMethodSupportsRequestBody` from `utils.ts`. -/
def httpMethodSupportsRequestBody : HTTPMethod → Bool
  | .GET => false
  | .POST => true
  | .PUT => true
  | .PATCH => true
  | .DELETE => false

/-- The same table indexed by the raw `request.method` string
(`httpMethodSupportsRequestBody[request.method as HTTPMethod]`); an
unknown method name looks up `undefined`, which is falsy. -/
def supportsRequestBodyByName (m : String) : Bool :=
  m = "POST" || m = "PUT" || m = "PATCH"

/-- Split a character list at every occurrence of `c` (the segment
structure of a path: `splitChar '/'` of `"/a/b"` is `[[], [a], [b]]`). -/
def splitChar (c : Char) : List Char → List (List Char)
  | [] => [[]]
  | x :: xs =>
    if x = c then [] :: splitChar c xs
    else
      match splitChar c xs with
      | [] => [[x]]
      | s :: ss => (x :: s) :: ss

/-- Rejoin segments with the separator `c` (inverse of `splitChar`). -/
def joinSegs (c : Char) : List (List Char) → List Char
  | [] => []
  | [s] => s
  | s :: rest => s ++ c :: joinSegs c rest

/-- The `/`-separated segments of a path or path template. -/
def splitSegments (p : String) : List (List Char) :=
  splitChar '/' p.data

/-- The parameter name declared by a template segment: a segment
starting with `:` names a parameter. -/
def pathKeyOfSegment (seg : List Char) : Option String :=
  match seg with
  | [] => none
  | c :: nm => if c = ':' then some (String.mk nm) else none

/-- Model of `getKeysFromPathPattern` (utils.ts): the named `:param` tokens of a
path template, in order of appearance, not deduplicated. -/
def getKeysFromPathPattern (pattern : String) : List String :=
  (splitSegments pattern).filterMap pathKeyOfSegment

/-- Structural match of a concrete path's segments against a template's
segments: literal segments must be equal, a `:name` segment binds the
(non-empty) concrete segment, anything else is a non-match. -/
def matchSegments : List (List Char) → List (List Char) → Option Record
  | [], [] => some []
  | tseg :: ts, cseg :: cs =>
    match tseg with
    | ':' :: nm =>
      if cseg.isEmpty then none
      else
        match matchSegments ts cs with
        | none => none
        | some rest => some ((String.mk nm, JValue.vStr (String.mk cseg)) :: rest)
    | _ =>
      if tseg = cseg then matchSegments ts cs else none
  | _, _ => none

/-- Model of `getParamsFromPath` (utils.ts): bound path-parameter values, or the
empty object when the concrete path does not match the template. -/
def getParamsFromPath (pattern concretePath : String) : Record :=
  (matchSegments (splitSegments pattern) (splitSegments concretePath)).getD []

/-- Modelled from the spec: the source of `toOpenAPIPath` (utils.ts) is
not under src/ (only its tests, callers and changeset are).  Spec §4.1:
"rewrites every `:name` token to `\x7bname\x7d`, preserving all literal
segments, slashes, and trailing slash exactly."  A `:name` template
segment is rewritten to a brace-delimited segment; every other segment is
kept unchanged. -/
def openAPISegment (seg : List Char) : List Char :=
  match seg with
  | [] => []
  | c :: nm => if c = ':' then '\x7b' :: (nm ++ ['\x7d']) else c :: nm

/-- Modelled from the spec: `toOpenAPIPath` (utils.ts), see
`openAPISegment`. -/
def toOpenAPIPath (pattern : String) : String :=
  String.mk (joinSegs '/' ((splitSegments pattern).map openAPISegment))

/-- The parameter name of a wire-format segment `\x7bname\x7d`, if the
segment is such a brace-delimited group. -/
def wireParamOfSegment (seg : List Char) : Option String :=
  match seg with
  | [] => none
  | c :: rest =>
    if c = '\x7b' then
      if rest.getLast? = some '\x7d' then some (String.mk rest.dropLast) else none
    else none

/-- The parameter names appearing as `\x7bname\x7d` segments of a
wire-format (OpenAPI) path string, in order. -/
def wireParamNames (s : String) : List String :=
  (splitSegments s).filterMap wireParamOfSegment

/-- The type of a declared input/output field (the fragment of the zod
schema language the routes use). -/
inductive FieldTy where
  | tString
  | tAny
deriving DecidableEq, Repr

/-- One declared field of a `z.object` schema. -/
structure Field where
  name : String
  ty : FieldTy
  optional : Bool
deriving DecidableEq, Repr

/-- A `z.object` schema: its declared fields in declaration order. -/
abbrev Schema := List Field

/-- A zod validation error: the list of (field path, issue message)
pairs. -/
abbrev ZodError := List (String × String)

/-- Does a JSON value conform to a field type? -/
def checkTy : FieldTy → JValue → Bool
  | .tString, .vStr _ => true
  | .tString, _ => false
  | .tAny, _ => true

/-- Model of `schema.safeParseAsync(data)`: validates every declared field
(required unless optional) and strips fields that are not declared
(zod's default object behaviour).  On success the result contains
exactly the declared fields that were present, in schema order. -/
def safeParse (schema : Schema) (data : Record) : Except ZodError Record :=
  match schema.filterMap (fun f =>
    match lookupField data f.name with
    | none => if f.optional then none else some (f.name, "Required")
    | some v => if checkTy f.ty v then none else some (f.name, "Invalid type")) with
  | [] => Except.ok (schema.filterMap (fun f =>
      (lookupField data f.name).map (fun v => (f.name, v))))
  | issue :: issues => Except.error (issue :: issues)

/-- A zod error rendered as the JSON structure embedded in the 400
response body. -/
def zodErrorToJValue (e : ZodError) : JValue :=
  JValue.vArr (e.map (fun pm =>
    JValue.vObj [("path", JValue.vStr pm.fst), ("message", JValue.vStr pm.snd)]))

/-- A WinterCG response: status, headers and (JSON) body. -/
structure Response where
  status : Nat
  headers : List (String × String)
  body : Option JValue

/-- Model of `createSchema(zodObject).schema` (zod-openapi): the structural JSON
Schema description of a field type. -/
def fieldTyDescriptor : FieldTy → JValue
  | .tString => JValue.vObj [("type", JValue.vStr "string")]
  | .tAny => JValue.vObj []

/-- Model of `createSchema(zodObject).schema` for a whole object schema. -/
def createSchemaDescriptor (s : Schema) : JValue :=
  JValue.vObj
    [("type", JValue.vStr "object"),
     ("properties", JValue.vObj (s.map (fun f => (f.name, fieldTyDescriptor f.ty)))),
     ("required", JValue.vArr (((s.filter (fun f => !f.optional)).map
        (fun f => JValue.vStr f.name))))]

/-- An OpenAPI response descriptor (`description` plus optional
`application/json` content schema). -/
structure ResponseDesc where
  description : String
  content : Option JValue := none

/-- Model of `commonReponses` (responses.ts; the name's spelling is the
source's). -/
def commonReponses405response : Response :=
  { status := 405, headers := [],
    body := some (JValue.vObj [("error", JValue.vStr "Method not allowed")]) }

/-- Model of `commonReponses[400].response(details)`: body
`\x7berror: "Bad request", details\x7d`. -/
def commonReponses400response (details : ZodError) : Response :=
  { status := 400, headers := [],
    body := some (JValue.vObj
      [("error", JValue.vStr "Bad request"), ("details", zodErrorToJValue details)]) }

/-- Model of `commonReponses[401].response()`: `new Response(null, \x7bstatus: 401\x7d)`. -/
def commonReponses401response : Response :=
  { status := 401, headers := [], body := none }

/-- Model of `commonReponses[500].response(error)`: body `\x7berror: error.message\x7d` —
the thrown error's message is embedded in the response body. -/
def commonReponses500response (errorMessage : String) : Response :=
  { status := 500, headers := [],
    body := some (JValue.vObj [("error", JValue.vStr errorMessage)]) }

/-- Model of `commonReponses[400].openAPISchema`. -/
def commonReponses400openAPISchema : ResponseDesc :=
  { description := "Bad request",
    content := some (JValue.vObj
      [("type", JValue.vStr "object"),
       ("properties", JValue.vObj
         [("error", JValue.vObj [("type", JValue.vStr "string")]),
          ("details", JValue.vObj [("type", JValue.vStr "object")])])]) }

/-- Model of `commonReponses[401].openAPISchema`. -/
def commonReponses401openAPISchema : ResponseDesc :=
  { description := "Unauthorized" }

/-- An OpenAPI parameter object (`name`, `in`, `required`, `schema`). -/
structure ParameterObject where
  name : String
  paramIn : String
  required : Bool
  schema : JValue

/-- An OpenAPI operation object.  Responses are a mapping from status
code to descriptor; a status whose value is `undefined` does not appear
in the serialized document, so it is modelled as `none`. -/
structure OperationObject where
  description : Option String
  parameters : List ParameterObject
  requestBody : Option JValue
  responses : Nat → Option ResponseDesc
  tags : Option (List String)

/-- An OpenAPI paths object: wire-format path → lower-cased method →
operation. -/
abbrev PathsObject := List (String × List (String × OperationObject))

/-- Model of `buildQueryParameters` (openapi.ts): one query parameter per schema
field that is not path-bound; `required` iff the field is not
optional. -/
def buildQueryParameters (input : Schema) (pathKeyNames : List String) :
    List ParameterObject :=
  (input.filter (fun f => !(pathKeyNames.contains f.name))).map (fun f =>
    { name := f.name, paramIn := "query", required := !f.optional,
      schema := fieldTyDescriptor f.ty })

/-- Model of `buildPathParameters` (openapi.ts): one always-required path
parameter per template key, described by the same-named schema field. -/
def buildPathParameters (input : Schema) (pathKeys : List String) :
    List ParameterObject :=
  pathKeys.map (fun k =>
    { name := k, paramIn := "path", required := true,
      schema := ((input.find? (fun f => f.name = k)).map
        (fun f => fieldTyDescriptor f.ty)).getD (JValue.vObj []) })

/-- The operation object assembled by `buildOpenAPIPathsObject`
(openapi.ts): 200 and 400 always documented, 401 exactly when
`requiresAuth`, nothing else (405/500 are deliberately absent). -/
def buildOperation (input output : Schema) (method : HTTPMethod)
    (path : String) (description : Option String) (tags : Option (List String))
    (requiresAuth : Bool) : OperationObject :=
  let pathKeys := getKeysFromPathPattern path
  { description := description
    parameters :=
      if httpMethodSupportsRequestBody method then
        buildPathParameters input pathKeys
      else
        buildQueryParameters input pathKeys ++ buildPathParameters input pathKeys
    requestBody :=
      if httpMethodSupportsRequestBody method then
        some (createSchemaDescriptor input)
      else none
    responses := fun status =>
      if status = 200 then
        some { description := "Success", content := some (createSchemaDescriptor output) }
      else if status = 400 then some commonReponses400openAPISchema
      else if status = 401 then
        (if requiresAuth then some commonReponses401openAPISchema else none)
      else none
    tags := tags }

/-- Model of `buildOpenAPIPathsObject` (openapi.ts): a single path entry keyed by
the wire-format rewrite of the template, holding a single operation
keyed by the lower-cased method. -/
def buildOpenAPIPathsObject (input output : Schema) (method : HTTPMethod)
    (path : String) (description : Option String) (tags : Option (List String))
    (requiresAuth : Bool) : PathsObject :=
  [(toOpenAPIPath path,
    [(methodLowercase method,
      buildOperation input output method path description tags requiresAuth)])]

/-- A WinterCG request, pre-resolved: raw method string, full URL (for
logs), the URL's pathname and query entries, and the result of
`request.json()` (`none` models a body that fails to parse as JSON).
`request.clone()` yields an independent copy with the same content, so
cloning is the identity here. -/
structure Request where
  method : String
  url : String
  pathname : String
  query : List (String × String)
  jsonBody : Option Record

/-- Outcome of awaiting the user's `authenticate` capability: resolution
to an authenticated context, resolution to a denial, or a thrown
(rejected) error. -/
inductive AuthOutcome where
  | ok (context : JValue)
  | denied (reason : String)
  | thrown (errorMessage : String)

/-- Model of `AuthenticateResult` (server.ts): the tagged union the pipeline
carries after the authentication step. -/
inductive AuthenticateResult where
  | authenticated (context : JValue)
  | denied (reason : String)

/-- Arguments the pipeline passes to the user's `run` capability. -/
structure RunArgs where
  request : Request
  input : Record
  authContext : JValue

/-- Outcome of awaiting the user's `run` capability: a returned response
or a thrown (rejected) error. -/
inductive RunOutcome where
  | ret (response : Response)
  | thrown (errorMessage : String)

/-- Model of `IMakeRequestHandlerProps`: the route descriptor. -/
structure Props where
  input : Schema
  output : Schema
  method : HTTPMethod
  path : String
  description : Option String := none
  tags : Option (List String) := none
  authenticate : Option (Request → AuthOutcome) := none
  run : RunArgs → RunOutcome

/-- Log levels of the logger contract. -/
inductive LogLevel where
  | debug
  | info
  | warn
  | error
deriving DecidableEq, Repr

/-- The structured `meta` payload of each logging call site of the
handler. -/
inductive LogMeta where
  | noMeta
  | methodMismatch (expectedMethod actualMethod url : String)
  | authDenied (url reason : String)
  | errorMeta (errorMessage url : String)
  | validationFailed (validationError : ZodError) (receivedInput : Record) (url : String)
  | unhandledError (errorMessage : String) (input : Record) (url : String)

/-- One observable step of a handler invocation: a logger call, or the
invocation of an external capability (authenticate, body parsing,
validation, user dispatch). -/
inductive Event where
  | log (level : LogLevel) (message : String) (meta : LogMeta)
  | authenticateCalled
  | bodyParseAttempted
  | validateCalled (unsafeData : Record)
  | runCalled (input : Record)

/-- Model of `getLoggingPrefix` (server.ts): `"Handler <METHOD> <pathname>"`. -/
def loggingPrefixOf (req : Request) : String :=
  "Handler " ++ req.method ++ " " ++ req.pathname

/-- The fixed message modelling the `SyntaxError` produced by a failing
`request.json()`. -/
def jsonParseErrorMessage : String := "Unexpected token"

/-- The body-or-query half of `extractRawInput` (server.ts): parse the
JSON body for body-capable methods (an unparsable body is logged as a
warning and replaced by the empty object), otherwise the query string. -/
def bodyOrQueryParams (req : Request) : Record × List Event :=
  if supportsRequestBodyByName req.method then
    match req.jsonBody with
    | some body => (body, [Event.bodyParseAttempted])
    | none =>
      ([], [Event.bodyParseAttempted,
            Event.log .warn (loggingPrefixOf req ++ " error parsing request body")
              (LogMeta.errorMeta jsonParseErrorMessage req.url)])
  else
    (req.query.map (fun kv => (kv.fst, JValue.vStr kv.snd)), [])

/-- Model of `extractRawInput` (server.ts): path-bound values spread first, then
body-or-query values spread over them (`\x7b...pathParams,
...bodyOrQueryParams\x7d`) — so a same-named body/query field overrides
the path-bound value. -/
def extractRawInput (req : Request) (path : String) : Record × List Event :=
  let pathParams := getParamsFromPath path req.pathname
  let bq := bodyOrQueryParams req
  (spreadMerge pathParams bq.fst, bq.snd)

/-- Model of `handleAuthentication` (server.ts): no capability configured →
authenticated with an undefined context; capability denies → logged and
returned as-is; capability throws → logged as an error and converted to
a denial (fail closed). -/
def handleAuthentication (authenticate : Option (Request → AuthOutcome))
    (req : Request) (logPre : String) : AuthenticateResult × List Event :=
  match authenticate with
  | none => (AuthenticateResult.authenticated JValue.vNull, [])
  | some f =>
    match f req with
    | .ok ctx => (AuthenticateResult.authenticated ctx, [Event.authenticateCalled])
    | .denied reason =>
      (AuthenticateResult.denied reason,
       [Event.authenticateCalled,
        Event.log .debug (logPre ++ " authentication failed: " ++ reason)
          (LogMeta.authDenied req.url reason)])
    | .thrown m =>
      (AuthenticateResult.denied "Authentication error",
       [Event.authenticateCalled,
        Event.log .error (logPre ++ " error during authentication check")
          (LogMeta.errorMeta m req.url)])

/-- Model of `validateInput` (server.ts): run the schema over the merged raw
input; a failure is logged as a warning and mapped to the common 400
response. -/
def validateInput (schema : Schema) (unsafeData : Record)
    (logPre url : String) : Except Response Record × List Event :=
  match safeParse schema unsafeData with
  | .error e =>
    (Except.error (commonReponses400response e),
     [Event.validateCalled unsafeData,
      Event.log .warn (logPre ++ " request validation failed")
        (LogMeta.validationFailed e unsafeData url)])
  | .ok d => (Except.ok d, [Event.validateCalled unsafeData])

/-- Model of `sendOutput`'s `ResponseInit` override (a subset: status and
headers). -/
structure ResponseInitOverride where
  status : Option Nat := none
  headers : List (String × String) := []

/-- Model of `lodash.merge` of two headers objects: base keys with overrides
applied, then new override keys. -/
def mergeHeaders (base overrides : List (String × String)) :
    List (String × String) :=
  base.map (fun kv =>
    (kv.fst, ((overrides.find? (fun o => o.fst = kv.fst)).map Prod.snd).getD kv.snd)) ++
    overrides.filter (fun o => (base.find? (fun kv => kv.fst = o.fst)).isNone)

/-- Model of `sendOutput` (server.ts): a JSON 200 response unless the options
override the status, content-type set unless overridden. -/
def sendOutput (output : Record) (options : Option ResponseInitOverride) : Response :=
  { status := (options.bind (fun o => o.status)).getD 200
    headers := mergeHeaders [("Content-Type", "application/json")]
      ((options.map (fun o => o.headers)).getD [])
    body := some (JValue.vObj output) }

/-- Model of `sendError` (server.ts): a caller-chosen-status JSON body
`\x7bmessage, data?\x7d`. -/
def sendError (status : Nat) (message : String) (data : Option Record) : Response :=
  { status := status
    headers := [("Content-Type", "application/json")]
    body := some (JValue.vObj
      (("message", JValue.vStr message) ::
        (match data with
         | some d => [("data", JValue.vObj d)]
         | none => []))) }

/-- The per-request pipeline of `makeRequestHandler` (server.ts):
method check → authentication → input extraction → validation → user
dispatch, every failure mapped to a response, nothing thrown past the
boundary.  Returns the response together with the ordered event trace of
the invocation. -/
def handle (props : Props) (req : Request) : Response × List Event :=
  let pre := loggingPrefixOf req
  let beginEvents : List Event := [Event.log .debug (pre ++ " begin") LogMeta.noMeta]
  if req.method ≠ methodName props.method then
    (commonReponses405response,
     beginEvents ++
       [Event.log .warn
         (pre ++ " invalid HTTP method: received " ++ req.method ++
           ", expected " ++ methodName props.method)
         (LogMeta.methodMismatch (methodName props.method) req.method req.url)])
  else
    let auth := handleAuthentication props.authenticate req pre
    match auth.fst with
    | AuthenticateResult.denied _ =>
      (commonReponses401response, beginEvents ++ auth.snd)
    | AuthenticateResult.authenticated ctx =>
      let ex := extractRawInput req props.path
      let v := validateInput props.input ex.fst pre req.url
      match v.fst with
      | .error resp => (resp, beginEvents ++ auth.snd ++ ex.snd ++ v.snd)
      | .ok input =>
        match props.run { request := req, input := input, authContext := ctx } with
        | .ret resp =>
          (resp, beginEvents ++ auth.snd ++ ex.snd ++ v.snd ++ [Event.runCalled input])
        | .thrown m =>
          (commonReponses500response m,
           beginEvents ++ auth.snd ++ ex.snd ++ v.snd ++
             [Event.runCalled input,
              Event.log .error (pre ++ " unhandled error when handling request")
                (LogMeta.unhandledError m input req.url)])

/-- The missing path parameters computed by the construction-time check
of `makeRequestHandler`: template keys absent from the input schema. -/
def missingPathParams (path : String) (input : Schema) : List String :=
  (getKeysFromPathPattern path).filter (fun k => !(input.any (fun f => f.name = k)))

/-- A parameter name quoted as it appears in the configuration error
message. -/
def quoteName (n : String) : String := "\"" ++ n ++ "\""

/-- Model of `missingParams.map(p => quoted).join(", ")`. -/
def joinComma : List String → String
  | [] => ""
  | [a] => a
  | a :: rest => a ++ ", " ++ joinComma rest

/-- The configuration error message thrown by `makeRequestHandler`:
`Path parameter(s) "a", "b" in "<path>" is/are not defined in the input
schema`. -/
def configErrorMessage (path : String) (missing : List String) : String :=
  "Path parameter" ++ (if missing.length > 1 then "s" else "") ++ " " ++
    joinComma (missing.map quoteName) ++ " in \"" ++ path ++ "\" " ++
    (if missing.length > 1 then "are" else "is") ++
    " not defined in the input schema"

/-- Model of `clientConfig` of the factory's return value (type-level only; the
runtime value carries the output schema, method and path). -/
structure ClientConfig where
  output : Schema
  method : HTTPMethod
  path : String

/-- The factory's return value: client config, the OpenAPI paths object
and the request handler. -/
structure RouteHandle where
  clientConfig : ClientConfig
  openAPIPathsObject : PathsObject
  handler : Request → Response × List Event

/-- Model of `makeRequestHandler` (server.ts): validates at construction time
that every path parameter is a schema field (throwing a configuration
error naming the missing ones), then assembles the OpenAPI paths object
and the request handler. -/
def makeRequestHandler (props : Props) : Except String RouteHandle :=
  match missingPathParams props.path props.input with
  | [] =>
    Except.ok
      { clientConfig :=
          { output := props.output, method := props.method, path := props.path }
        openAPIPathsObject :=
          buildOpenAPIPathsObject props.input props.output props.method props.path
            props.description props.tags props.authenticate.isSome
        handler := handle props }
  | m :: ms => Except.error (configErrorMessage props.path (m :: ms))

/-- Is an event the invocation of the user's `run` capability? -/
def isRunCalled : Event → Bool
  | .runCalled _ => true
  | _ => false

/-- Is an event the invocation of the `authenticate` capability? -/
def isAuthenticateCalled : Event → Bool
  | .authenticateCalled => true
  | _ => false

/-- Is an event an attempt to parse the request body? -/
def isBodyParseAttempted : Event → Bool
  | .bodyParseAttempted => true
  | _ => false

/-- Is an event an input-validation attempt? -/
def isValidateCalled : Event → Bool
  | .validateCalled _ => true
  | _ => false

/-- Does a trace invoke the user's `run` capability? -/
def traceCallsRun (tr : List Event) : Bool := tr.any isRunCalled

/-- Does a trace invoke the `authenticate` capability? -/
def traceCallsAuthenticate (tr : List Event) : Bool := tr.any isAuthenticateCalled

/-- Does a trace attempt to parse the request body? -/
def traceParsesBody (tr : List Event) : Bool := tr.any isBodyParseAttempted

/-- Does a trace attempt input validation? -/
def traceValidates (tr : List Event) : Bool := tr.any isValidateCalled

/-- Are all keys of a record declared as fields of a schema? -/
def keysDeclared (s : Schema) (r : Record) : Bool :=
  r.all (fun kv => s.any (fun f => f.name = kv.fst))

/-- Does an authentication outcome fail (an explicit denial or a thrown
error, as opposed to a resolution to authenticated)? -/
def authOutcomeFails : AuthOutcome → Bool
  | .ok _ => false
  | .denied _ => true
  | .thrown _ => true

/-- A user `run` capability that echoes the validated input it received
as a JSON 200 response (used as a concrete observer). -/
def echoRun : RunArgs → RunOutcome := fun args =>
  RunOutcome.ret { status := 200, headers := [], body := some (JValue.vObj args.input) }

/-- A route with a path-bound parameter that can also arrive via the
query string. -/
def exampleCollisionProps : Props :=
  { input := [{ name := "name", ty := .tString, optional := false }]
    output := [{ name := "name", ty := .tString, optional := false }]
    method := .GET
    path := "/api/hello/:name"
    run := echoRun }

/-- A GET request whose path binds `name := "pathval"` while the query
string carries `name=queryval`. -/
def exampleCollisionRequest : Request :=
  { method := "GET", url := "http://test.com/api/hello/pathval?name=queryval",
    pathname := "/api/hello/pathval", query := [("name", "queryval")],
    jsonBody := none }

/-- The running-example route: GET /api/hello with a required string
field `name`. -/
def exampleHelloProps : Props :=
  { input := [{ name := "name", ty := .tString, optional := false }]
    output := [{ name := "greeting", ty := .tString, optional := false }]
    method := .GET
    path := "/api/hello"
    run := echoRun }

/-- GET http://test.com/api/hello?name=test. -/
def exampleHelloRequest : Request :=
  { method := "GET", url := "http://test.com/api/hello?name=test",
    pathname := "/api/hello", query := [("name", "test")], jsonBody := none }

/-- The hello route with an `authenticate` capability that throws. -/
def exampleAuthThrowProps : Props :=
  { exampleHelloProps with
    authenticate := some (fun _ => AuthOutcome.thrown "Auth service unavailable") }

/-- The hello route with a `run` capability that throws "boom". -/
def exampleBoomProps : Props :=
  { exampleHelloProps with run := fun _ => RunOutcome.thrown "boom" }

/-- The hello route with a `run` capability that throws "bang". -/
def exampleBangProps : Props :=
  { exampleHelloProps with run := fun _ => RunOutcome.thrown "bang" }

/-- POST /api/hello with an empty-object input schema and a `run` that
sends an empty JSON output. -/
def examplePostEmptySchemaProps : Props :=
  { input := []
    output := []
    method := .POST
    path := "/api/hello"
    run := fun _ => RunOutcome.ret (sendOutput [] none) }

/-- POST /api/hello with a required `name` field. -/
def examplePostNameSchemaProps : Props :=
  { examplePostEmptySchemaProps with
    input := [{ name := "name", ty := .tString, optional := false }] }

/-- POST http://test.com/api/hello whose body is `not-json` (so
`request.json()` rejects). -/
def exampleMalformedPostRequest : Request :=
  { method := "POST", url := "http://test.com/api/hello",
    pathname := "/api/hello", query := [], jsonBody := none }

/-- A route descriptor whose template names two parameters that the
(empty) input schema does not declare. -/
def exampleMissingParamsProps : Props :=
  { input := []
    output := []
    method := .GET
    path := "/api/users/:userId/posts/:postId"
    run := echoRun }

theorem lookupField_append (xs ys : Record) (k : String) :
    lookupField (xs ++ ys) k = (lookupField xs k).or (lookupField ys k) := by
  induction xs with
  | nil => simp [lookupField]
  | cons kv rest ih =>
    obtain ⟨k', v⟩ := kv
    by_cases h : k' = k
    · simp [lookupField, h]
    · simp [lookupField, h, ih]

theorem lookupField_map_override (a b : Record) (k : String) :
    lookupField (a.map (fun kv => (kv.fst, (lookupField b kv.fst).getD kv.snd))) k
      = (lookupField a k).map (fun v => (lookupField b k).getD v) := by
  induction a with
  | nil => simp [lookupField]
  | cons kv rest ih =>
    obtain ⟨k', v⟩ := kv
    by_cases h : k' = k
    · subst h; simp [lookupField]
    · simp [lookupField, h, ih]

theorem lookupField_filter_key (b : Record) (p : String → Bool) (k : String) :
    lookupField (b.filter (fun kv => p kv.fst)) k
      = if p k then lookupField b k else none := by
  induction b with
  | nil => simp [lookupField]
  | cons kv rest ih =>
    obtain ⟨k', v⟩ := kv
    by_cases hk : k' = k
    · subst hk
      cases hp : p k' <;> simp [List.filter_cons, hp, lookupField, ih]
    · cases hp : p k' <;> simp [List.filter_cons, hp, lookupField, hk, ih]

theorem lookupField_spreadMerge (a b : Record) (k : String) :
    lookupField (spreadMerge a b) k = (lookupField b k).or (lookupField a k) := by
  unfold spreadMerge
  rw [lookupField_append, lookupField_map_override,
    lookupField_filter_key b (fun s => (lookupField a s).isNone) k]
  cases ha : lookupField a k <;> cases hb : lookupField b k <;>
    simp [ha, hb, Option.or]

/-- C1 (counterexample): on the route `GET /api/hello/:name`, a request
whose path binds `name := "pathval"` while the query carries
`name=queryval` is dispatched with the validated input reflecting the
query value, not the path-bound value — the claim that path-bound
values always win is false on the code. -/
theorem pathParam_collision_query_wins_counterexample :
    (handle exampleCollisionProps exampleCollisionRequest).fst.body
        = some (JValue.vObj [("name", JValue.vStr "queryval")]) ∧
    getParamsFromPath exampleCollisionProps.path exampleCollisionRequest.pathname
        = [("name", JValue.vStr "pathval")] ∧
    JValue.vStr "queryval" ≠ JValue.vStr "pathval" :=
  ⟨rfl, rfl, by simp⟩

/-- C1 (amended): the merged input passed to `inputSchema.validate` is
assembled with the opposite precedence: body-or-query values always win
over a same-named path-bound field, and a path-bound value is used only
when the name is absent from the body-or-query fields. -/
theorem extractRawInput_lookup_precedence (req : Request) (path k : String) :
    lookupField (extractRawInput req path).fst k
      = (lookupField (bodyOrQueryParams req).fst k).or
          (lookupField (getParamsFromPath path req.pathname) k) := by
  simp only [extractRawInput]
  exact lookupField_spreadMerge _ _ k

/-- C6: for every route descriptor, the generated documentation
operation's responses contain 200 (with the output schema's structural
description) and 400 (the generic error schema), contain 401 exactly
when an authenticate capability is configured, and never contain 405 or
500; the paths object holds that operation under the wire-format path
and lower-cased method. -/
theorem documented_response_statuses (props : Props) :
    buildOpenAPIPathsObject props.input props.output props.method props.path
        props.description props.tags props.authenticate.isSome
      = [(toOpenAPIPath props.path,
          [(methodLowercase props.method,
            buildOperation props.input props.output props.method props.path
              props.description props.tags props.authenticate.isSome)])] ∧
    (buildOperation props.input props.output props.method props.path
        props.description props.tags props.authenticate.isSome).responses 200
      = some { description := "Success",
               content := some (createSchemaDescriptor props.output) } ∧
    (buildOperation props.input props.output props.method props.path
        props.description props.tags props.authenticate.isSome).responses 400
      = some commonReponses400openAPISchema ∧
    (buildOperation props.input props.output props.method props.path
        props.description props.tags props.authenticate.isSome).responses 401
      = (if props.authenticate.isSome then some commonReponses401openAPISchema
         else none) ∧
    (buildOperation props.input props.output props.method props.path
        props.description props.tags props.authenticate.isSome).responses 405
      = none ∧
    (buildOperation props.input props.output props.method props.path
        props.description props.tags props.authenticate.isSome).responses 500
      = none :=
  ⟨rfl, rfl, rfl, rfl, rfl, rfl⟩

/-- C8: the handler is deterministic in the request content — two
requests that agree on method, URL, pathname, query and body produce
identical responses and traces (all capabilities are fixed by the route
descriptor and the embedding is effect-free). -/
theorem handler_deterministic (props : Props) (r1 r2 : Request)
    (hm : r1.method = r2.method) (hu : r1.url = r2.url)
    (hp : r1.pathname = r2.pathname) (hq : r1.query = r2.query)
    (hb : r1.jsonBody = r2.jsonBody) :
    handle props r1 = handle props r2 := by
  obtain ⟨m1, u1, p1, q1, b1⟩ := r1
  obtain ⟨m2, u2, p2, q2, b2⟩ := r2
  cases hm; cases hu; cases hp; cases hq; cases hb; rfl

/-- C8 witness: the determinism theorem applied at the running
example. -/
theorem handler_deterministic_witness :
    handle exampleHelloProps exampleHelloRequest
      = handle exampleHelloProps exampleHelloRequest :=
  handler_deterministic exampleHelloProps exampleHelloRequest exampleHelloRequest
    rfl rfl rfl rfl rfl

/-- C9: a request whose method differs from the configured method gets
the 405 response with no later pipeline step performed: the authenticate
capability is not invoked, the body is not parsed, validation is not
attempted and `run` is not invoked. -/
theorem method_mismatch_terminal_405 (props : Props) (req : Request)
    (h : req.method ≠ methodName props.method) :
    (handle props req).fst = commonReponses405response ∧
    traceCallsAuthenticate (handle props req).snd = false ∧
    traceParsesBody (handle props req).snd = false ∧
    traceValidates (handle props req).snd = false ∧
    traceCallsRun (handle props req).snd = false := by
  simp [handle, h, traceCallsAuthenticate, traceParsesBody, traceValidates,
    traceCallsRun, isAuthenticateCalled, isBodyParseAttempted, isValidateCalled,
    isRunCalled]

/-- C9 witness: a POST hitting the GET route is terminally rejected with
405. -/
theorem method_mismatch_terminal_405_witness :
    (handle exampleHelloProps
        { exampleHelloRequest with method := "POST" }).fst
      = commonReponses405response ∧
    traceCallsAuthenticate (handle exampleHelloProps
        { exampleHelloRequest with method := "POST" }).snd = false ∧
    traceParsesBody (handle exampleHelloProps
        { exampleHelloRequest with method := "POST" }).snd = false ∧
    traceValidates (handle exampleHelloProps
        { exampleHelloRequest with method := "POST" }).snd = false ∧
    traceCallsRun (handle exampleHelloProps
        { exampleHelloRequest with method := "POST" }).snd = false :=
  method_mismatch_terminal_405 exampleHelloProps
    { exampleHelloRequest with method := "POST" } (by decide)

/-- C2: on a route with an authenticate capability, a denial and a
thrown exception are handled identically (fail closed): the response is
exactly the common 401 response and the user `run` capability is never
invoked. -/
theorem auth_failure_fail_closed (props : Props) (req : Request)
    (f : Request → AuthOutcome)
    (hf : props.authenticate = some f)
    (hm : req.method = methodName props.method)
    (hfail : authOutcomeFails (f req) = true) :
    (handle props req).fst = commonReponses401response ∧
    commonReponses401response.status = 401 ∧
    traceCallsRun (handle props req).snd = false := by
  cases hout : f req with
  | ok ctx => rw [hout] at hfail; simp [authOutcomeFails] at hfail
  | denied reason =>
    simp [handle, hm, hf, handleAuthentication, hout, traceCallsRun, isRunCalled,
      commonReponses401response]
  | thrown m =>
    simp [handle, hm, hf, handleAuthentication, hout, traceCallsRun, isRunCalled,
      commonReponses401response]

/-- C2 witness: an authenticate capability that throws yields 401 and
`run` is not invoked. -/
theorem auth_failure_fail_closed_witness :
    (handle exampleAuthThrowProps exampleHelloRequest).fst
        = commonReponses401response ∧
    commonReponses401response.status = 401 ∧
    traceCallsRun (handle exampleAuthThrowProps exampleHelloRequest).snd = false :=
  auth_failure_fail_closed exampleAuthThrowProps exampleHelloRequest _ rfl rfl rfl

/-- C5 (counterexample): the 500 response body embeds the thrown
error's message (`\x7berror: error.message\x7d`), so the body is not a
message-independent generic string: two `run` capabilities throwing
different messages produce different 500 bodies, each containing its
message. -/
theorem unhandled_error_message_leak_counterexample :
    (handle exampleBoomProps exampleHelloRequest).fst.status = 500 ∧
    (handle exampleBoomProps exampleHelloRequest).fst.body
        = some (JValue.vObj [("error", JValue.vStr "boom")]) ∧
    (handle exampleBangProps exampleHelloRequest).fst.body
        = some (JValue.vObj [("error", JValue.vStr "bang")]) ∧
    (handle exampleBoomProps exampleHelloRequest).fst.body
        ≠ (handle exampleBangProps exampleHelloRequest).fst.body := by
  refine ⟨rfl, rfl, rfl, ?_⟩
  rw [show (handle exampleBoomProps exampleHelloRequest).fst.body
        = some (JValue.vObj [("error", JValue.vStr "boom")]) from rfl,
      show (handle exampleBangProps exampleHelloRequest).fst.body
        = some (JValue.vObj [("error", JValue.vStr "bang")]) from rfl]
  simp

/-- C5 (amended): when `run` throws, the handler returns the common 500
response — whose body is `\x7berror: <thrown message>\x7d`, i.e. the
thrown message is included, not a generic string — and logs a single
error event carrying the error message, the validated input and the
request URL; no exception propagates (the handler still returns a
response). -/
theorem run_throw_500_behavior (props : Props) (req : Request)
    (i : Record) (m : String)
    (hm : req.method = methodName props.method)
    (hauth : props.authenticate = none)
    (hparse : safeParse props.input (extractRawInput req props.path).fst
        = Except.ok i)
    (hrun : props.run { request := req, input := i, authContext := JValue.vNull }
        = RunOutcome.thrown m) :
    (handle props req).fst = commonReponses500response m ∧
    commonReponses500response m
      = { status := 500, headers := [],
          body := some (JValue.vObj [("error", JValue.vStr m)]) } ∧
    Event.log .error (loggingPrefixOf req ++ " unhandled error when handling request")
        (LogMeta.unhandledError m i req.url) ∈ (handle props req).snd := by
  simp [handle, hm, hauth, handleAuthentication, validateInput, hparse, hrun,
    commonReponses500response]

/-- C5 witness: the amended 500 behaviour at a concrete throwing
route. -/
theorem run_throw_500_behavior_witness :
    (handle exampleBoomProps exampleHelloRequest).fst
        = commonReponses500response "boom" ∧
    commonReponses500response "boom"
      = { status := 500, headers := [],
          body := some (JValue.vObj [("error", JValue.vStr "boom")]) } ∧
    Event.log .error
        (loggingPrefixOf exampleHelloRequest ++ " unhandled error when handling request")
        (LogMeta.unhandledError "boom" [("name", JValue.vStr "test")]
          exampleHelloRequest.url)
      ∈ (handle exampleBoomProps exampleHelloRequest).snd :=
  run_throw_500_behavior exampleBoomProps exampleHelloRequest
    [("name", JValue.vStr "test")] "boom" rfl rfl rfl rfl

/-- C4: for a body-capable request whose body fails to parse as JSON the
handler substitutes the empty object instead of hard-failing; with an
empty-object input schema the pipeline reaches `run` and returns its
response, while with a required `name : string` field (and no path-bound
`name`) the same malformed body fails validation with status 400. -/
theorem malformed_body_schema_dependent (props : Props) (req : Request)
    (r : Response)
    (hm : req.method = methodName props.method)
    (hbody : supportsRequestBodyByName req.method = true)
    (hauth : props.authenticate = none)
    (hjson : req.jsonBody = none) :
    (props.input = [] →
      props.run { request := req, input := [], authContext := JValue.vNull }
          = RunOutcome.ret r →
      (handle props req).fst = r) ∧
    (props.input = [{ name := "name", ty := FieldTy.tString, optional := false }] →
      getParamsFromPath props.path req.pathname = [] →
      (handle props req).fst.status = 400) := by
  constructor
  · intro hi hrun
    simp [handle, hm, hauth, handleAuthentication, validateInput, hi, safeParse,
      hrun]
  · intro hi hparams
    rw [hm] at hbody
    simp [handle, hm, hauth, handleAuthentication, validateInput, hi,
      extractRawInput, bodyOrQueryParams, hbody, hjson, hparams, spreadMerge,
      safeParse, lookupField, commonReponses400response]

/-- C4 witness: POST /api/hello with an unparsable body — 200 (the run
response) under the empty schema, 400 under the `name : string`
schema. -/
theorem malformed_body_schema_dependent_witness :
    (handle examplePostEmptySchemaProps exampleMalformedPostRequest).fst
        = sendOutput [] none ∧
    (handle examplePostNameSchemaProps exampleMalformedPostRequest).fst.status
        = 400 :=
  ⟨(malformed_body_schema_dependent examplePostEmptySchemaProps
      exampleMalformedPostRequest (sendOutput [] none) rfl rfl rfl rfl).1 rfl rfl,
   (malformed_body_schema_dependent examplePostNameSchemaProps
      exampleMalformedPostRequest (sendOutput [] none) rfl rfl rfl rfl).2 rfl rfl⟩

theorem runCalled_not_mem_handleAuthentication
    (a : Option (Request → AuthOutcome)) (req : Request) (pre : String)
    (i : Record) : Event.runCalled i ∉ (handleAuthentication a req pre).snd := by
  unfold handleAuthentication
  cases a with
  | none => simp
  | some f => cases hfr : f req <;> simp [hfr]

theorem runCalled_not_mem_bodyOrQueryParams (req : Request) (i : Record) :
    Event.runCalled i ∉ (bodyOrQueryParams req).snd := by
  unfold bodyOrQueryParams
  cases h : supportsRequestBodyByName req.method with
  | false => simp [h]
  | true => cases hb : req.jsonBody <;> simp [h, hb]

theorem runCalled_not_mem_extractRawInput (req : Request) (path : String)
    (i : Record) : Event.runCalled i ∉ (extractRawInput req path).snd := by
  simp only [extractRawInput]
  exact runCalled_not_mem_bodyOrQueryParams req i

theorem runCalled_not_mem_validateInput (s : Schema) (d : Record)
    (pre url : String) (i : Record) :
    Event.runCalled i ∉ (validateInput s d pre url).snd := by
  unfold validateInput
  cases h : safeParse s d <;> simp [h]

theorem validateInput_fst_ok (s : Schema) (d : Record) (pre url : String)
    (r : Record) (h : (validateInput s d pre url).fst = Except.ok r) :
    safeParse s d = Except.ok r := by
  unfold validateInput at h
  cases hs : safeParse s d with
  | error e => rw [hs] at h; simp at h
  | ok v => rw [hs] at h; simp at h; rw [h]

theorem safeParse_ok_keysDeclared (s : Schema) (d : Record) (r : Record)
    (h : safeParse s d = Except.ok r) : keysDeclared s r = true := by
  unfold safeParse at h
  split at h
  · rw [Except.ok.injEq] at h
    subst h
    rw [keysDeclared, List.all_eq_true]
    intro kv hkv
    obtain ⟨f, hf, heq⟩ := List.mem_filterMap.mp hkv
    obtain ⟨v, hv, rfl⟩ := Option.map_eq_some'.mp heq
    exact List.any_eq_true.mpr ⟨f, hf, by simp⟩
  · simp at h

/-- C10: whenever the pipeline invokes the user's `run` capability, the
input it passes is exactly the schema-parsed value of the merged raw
input — every key of the dispatched input is a declared schema field
(undeclared fields are stripped), and an empty-object schema always
dispatches the empty mapping. -/
theorem run_receives_schema_parsed_input (props : Props) (req : Request)
    (i : Record) (h : Event.runCalled i ∈ (handle props req).snd) :
    safeParse props.input (extractRawInput req props.path).fst = Except.ok i ∧
    keysDeclared props.input i = true ∧
    (props.input = [] → i = []) := by
  simp only [handle] at h
  by_cases hm : req.method ≠ methodName props.method
  · rw [if_pos hm] at h
    simp at h
  · rw [if_neg hm] at h
    cases ha : (handleAuthentication props.authenticate req (loggingPrefixOf req)).fst with
    | denied r =>
      rw [ha] at h
      simp at h
      exact absurd h (runCalled_not_mem_handleAuthentication _ _ _ _)
    | authenticated ctx =>
      rw [ha] at h
      cases hv : (validateInput props.input
          (extractRawInput req props.path).fst (loggingPrefixOf req) req.url).fst with
      | error resp =>
        rw [hv] at h
        simp at h
        rcases h with h | h | h
        · exact absurd h (runCalled_not_mem_handleAuthentication _ _ _ _)
        · exact absurd h (runCalled_not_mem_extractRawInput _ _ _)
        · exact absurd h (runCalled_not_mem_validateInput _ _ _ _ _)
      | ok inp =>
        rw [hv] at h
        have hs := validateInput_fst_ok _ _ _ _ _ hv
        have hmain : i = inp → safeParse props.input (extractRawInput req props.path).fst = Except.ok i ∧
            keysDeclared props.input i = true ∧ (props.input = [] → i = []) := by
          intro hi
          subst hi
          refine ⟨hs, safeParse_ok_keysDeclared _ _ _ hs, ?_⟩
          intro hempty
          rw [hempty] at hs
          simp [safeParse] at hs
          exact hs
        cases hr : props.run { request := req, input := inp, authContext := ctx } with
        | ret resp =>
          simp [hr] at h
          rcases h with h | h | h | h
          · exact absurd h (runCalled_not_mem_handleAuthentication _ _ _ _)
          · exact absurd h (runCalled_not_mem_extractRawInput _ _ _)
          · exact absurd h (runCalled_not_mem_validateInput _ _ _ _ _)
          · exact hmain h
        | thrown m =>
          simp [hr] at h
          rcases h with h | h | h | h
          · exact absurd h (runCalled_not_mem_handleAuthentication _ _ _ _)
          · exact absurd h (runCalled_not_mem_extractRawInput _ _ _)
          · exact absurd h (runCalled_not_mem_validateInput _ _ _ _ _)
          · exact hmain h

/-- C10 witness: the hello route dispatches exactly the parsed
`\x7bname := "test"\x7d` input. -/
theorem run_receives_schema_parsed_input_witness :
    safeParse exampleHelloProps.input
        (extractRawInput exampleHelloRequest exampleHelloProps.path).fst
      = Except.ok [("name", JValue.vStr "test")] ∧
    keysDeclared exampleHelloProps.input [("name", JValue.vStr "test")] = true ∧
    (exampleHelloProps.input = [] → [("name", JValue.vStr "test")] = ([] : Record)) :=
  run_receives_schema_parsed_input exampleHelloProps exampleHelloRequest
    [("name", JValue.vStr "test")]
    (by
      have htr : (handle exampleHelloProps exampleHelloRequest).snd
          = [Event.log .debug "Handler GET /api/hello begin" LogMeta.noMeta,
             Event.validateCalled [("name", JValue.vStr "test")],
             Event.runCalled [("name", JValue.vStr "test")]] := rfl
      rw [htr]
      exact List.mem_cons_of_mem _ (List.mem_cons_of_mem _ (List.mem_cons_self _ _)))

theorem data_infix_append_right (x : List Char) (a b : String)
    (h : x <:+: a.data) : x <:+: (a ++ b).data := by
  obtain ⟨s, t, hst⟩ := h
  exact ⟨s, t ++ b.data, by rw [String.data_append, ← hst]; simp⟩

theorem data_infix_append_left (x : List Char) (a b : String)
    (h : x <:+: b.data) : x <:+: (a ++ b).data := by
  obtain ⟨s, t, hst⟩ := h
  exact ⟨a.data ++ s, t, by rw [String.data_append, ← hst]; simp⟩

theorem quoted_infix_joinComma (n : String) (l : List String) (h : n ∈ l) :
    (quoteName n).data <:+: (joinComma (l.map quoteName)).data := by
  induction l with
  | nil => cases h
  | cons a rest ih =>
    rcases List.mem_cons.mp h with heq | hmem
    · subst heq
      cases rest with
      | nil => exact List.infix_rfl
      | cons b bs =>
        exact ⟨[], (", " ++ joinComma ((b :: bs).map quoteName)).data,
          by simp [joinComma, String.data_append]⟩
    · cases rest with
      | nil => cases hmem
      | cons b bs =>
        obtain ⟨s, t, hst⟩ := ih hmem
        refine ⟨(quoteName a ++ ", ").data ++ s, t, ?_⟩
        rw [List.append_assoc, List.append_assoc, ← List.append_assoc s, hst]
        simp [joinComma, String.data_append]

/-- C3: a route descriptor whose path template names parameters absent
from the input schema fails at construction time: `makeRequestHandler`
returns the configuration error (no handler is produced), and the error
message names every missing parameter (each one appears quoted inside
the message). -/
theorem construction_missing_path_params_error (props : Props)
    (h : missingPathParams props.path props.input ≠ []) :
    makeRequestHandler props
      = Except.error (configErrorMessage props.path
          (missingPathParams props.path props.input)) ∧
    ∀ k ∈ missingPathParams props.path props.input,
      (quoteName k).data
        <:+: (configErrorMessage props.path
              (missingPathParams props.path props.input)).data := by
  constructor
  · unfold makeRequestHandler
    cases hm : missingPathParams props.path props.input with
    | nil => exact absurd hm h
    | cons m ms => rfl
  · intro k hk
    have h1 := quoted_infix_joinComma k _ hk
    unfold configErrorMessage
    apply data_infix_append_right
    apply data_infix_append_right
    apply data_infix_append_right
    apply data_infix_append_right
    apply data_infix_append_right
    apply data_infix_append_left
    exact h1

/-- C3 witness: a template with two undeclared parameters fails at
construction and the error names both. -/
theorem construction_missing_path_params_error_witness :
    makeRequestHandler exampleMissingParamsProps
      = Except.error (configErrorMessage exampleMissingParamsProps.path
          (missingPathParams exampleMissingParamsProps.path
            exampleMissingParamsProps.input)) ∧
    (quoteName "userId").data
      <:+: (configErrorMessage exampleMissingParamsProps.path
            (missingPathParams exampleMissingParamsProps.path
              exampleMissingParamsProps.input)).data ∧
    (quoteName "postId").data
      <:+: (configErrorMessage exampleMissingParamsProps.path
            (missingPathParams exampleMissingParamsProps.path
              exampleMissingParamsProps.input)).data :=
  ⟨(construction_missing_path_params_error exampleMissingParamsProps
      (by decide)).1,
   (construction_missing_path_params_error exampleMissingParamsProps
      (by decide)).2 "userId" (by decide),
   (construction_missing_path_params_error exampleMissingParamsProps
      (by decide)).2 "postId" (by decide)⟩

theorem splitChar_ne_nil (c : Char) (l : List Char) : splitChar c l ≠ [] := by
  induction l with
  | nil => simp [splitChar]
  | cons x xs ih =>
    simp only [splitChar]
    split
    · simp
    · split
      · simp
      · simp

theorem not_mem_splitChar (c : Char) (l : List Char) :
    ∀ s ∈ splitChar c l, c ∉ s := by
  induction l with
  | nil =>
    intro s hs
    simp [splitChar] at hs
    subst hs
    simp
  | cons x xs ih =>
    intro s hs
    by_cases hx : x = c
    · simp only [splitChar, if_pos hx] at hs
      rcases List.mem_cons.mp hs with h | h
      · subst h; simp
      · exact ih s h
    · simp only [splitChar, if_neg hx] at hs
      cases hsp : splitChar c xs with
      | nil => exact absurd hsp (splitChar_ne_nil c xs)
      | cons s0 ss =>
        rw [hsp] at hs
        rcases List.mem_cons.mp hs with h | h
        · subst h
          intro hmem
          rcases List.mem_cons.mp hmem with h1 | h1
          · exact hx h1.symm
          · exact ih s0 (by rw [hsp]; exact List.mem_cons_self s0 ss) h1
        · exact ih s (by rw [hsp]; exact List.mem_cons_of_mem s0 h)

theorem splitChar_no_sep (c : Char) (s : List Char) (h : c ∉ s) :
    splitChar c s = [s] := by
  induction s with
  | nil => rfl
  | cons x xs ih =>
    have hx : ¬ x = c := by rintro rfl; exact h (List.mem_cons_self x xs)
    have hxs : c ∉ xs := fun m => h (List.mem_cons_of_mem x m)
    simp only [splitChar, if_neg hx, ih hxs]

theorem splitChar_append_cons (c : Char) (s t : List Char) (h : c ∉ s) :
    splitChar c (s ++ c :: t) = s :: splitChar c t := by
  induction s with
  | nil => simp [splitChar]
  | cons x xs ih =>
    have hx : ¬ x = c := by rintro rfl; exact h (List.mem_cons_self x xs)
    have hxs : c ∉ xs := fun m => h (List.mem_cons_of_mem x m)
    rw [List.cons_append]
    simp only [splitChar, if_neg hx, ih hxs]

theorem splitChar_joinSegs (c : Char) (L : List (List Char)) (hL : L ≠ [])
    (h : ∀ s ∈ L, c ∉ s) : splitChar c (joinSegs c L) = L := by
  induction L with
  | nil => exact absurd rfl hL
  | cons s rest ih =>
    cases rest with
    | nil =>
      simp only [joinSegs]
      exact splitChar_no_sep c s (h s (List.mem_cons_self s []))
    | cons s2 rest2 =>
      rw [show joinSegs c (s :: s2 :: rest2) = s ++ c :: joinSegs c (s2 :: rest2)
          from rfl]
      rw [splitChar_append_cons c s _ (h s (List.mem_cons_self s _))]
      rw [ih (by simp) (fun x hx => h x (List.mem_cons_of_mem s hx))]

/-- C7: the wire-format rewrite maps every template segment through
`openAPISegment` (literal segments, slashes and any trailing slash are
preserved exactly, `:name` becomes a brace group), the brace groups of
the result are exactly the template's parameter names in order, the
running example rewrites as expected, and the documentation artifact
keys its single path entry by this rewritten string.  The hypothesis
rules out template segments that already begin with a brace. -/
theorem toOpenAPIPath_wire_format (p : String)
    (hb : (splitSegments p).all (fun seg => seg.head? ≠ some '\x7b') = true) :
    splitSegments (toOpenAPIPath p) = (splitSegments p).map openAPISegment ∧
    wireParamNames (toOpenAPIPath p) = getKeysFromPathPattern p ∧
    (∀ seg : List Char, seg.head? ≠ some ':' → openAPISegment seg = seg) ∧
    toOpenAPIPath "/api/users/:userId/posts/:postId"
      = "/api/users/\x7buserId\x7d/posts/\x7bpostId\x7d" ∧
    (∀ (input output : Schema) (method : HTTPMethod) (d : Option String)
        (t : Option (List String)) (ra : Bool),
      (buildOpenAPIPathsObject input output method p d t ra).map Prod.fst
        = [toOpenAPIPath p]) := by
  have hsegs : splitSegments (toOpenAPIPath p)
      = (splitSegments p).map openAPISegment := by
    unfold toOpenAPIPath splitSegments
    rw [show (String.mk (joinSegs '/'
          ((splitChar '/' p.data).map openAPISegment))).data
        = joinSegs '/' ((splitChar '/' p.data).map openAPISegment) from rfl]
    apply splitChar_joinSegs
    · simp [splitChar_ne_nil]
    · intro s hs
      obtain ⟨seg, hseg, rfl⟩ := List.mem_map.mp hs
      have hns : '/' ∉ seg := not_mem_splitChar '/' p.data seg hseg
      cases seg with
      | nil => simp [openAPISegment]
      | cons c0 nm =>
        by_cases hc : c0 = ':'
        · simp only [openAPISegment, if_pos hc]
          intro hmem
          rcases List.mem_cons.mp hmem with h1 | h1
          · exact absurd h1 (by decide)
          · rcases List.mem_append.mp h1 with h2 | h2
            · exact hns (List.mem_cons_of_mem c0 h2)
            · rw [List.mem_singleton] at h2
              exact absurd h2 (by decide)
        · simp only [openAPISegment, if_neg hc]
          exact hns
  refine ⟨hsegs, ?_, ?_, rfl, fun i o m d t ra => rfl⟩
  · unfold wireParamNames
    rw [hsegs, List.filterMap_map]
    unfold getKeysFromPathPattern
    apply List.filterMap_congr
    intro seg hseg
    have hbseg : seg.head? ≠ some '\x7b' := by
      simpa using List.all_eq_true.mp hb seg hseg
    cases seg with
    | nil => rfl
    | cons c0 nm =>
      by_cases hc : c0 = ':'
      · subst hc
        show wireParamOfSegment (openAPISegment (':' :: nm))
          = pathKeyOfSegment (':' :: nm)
        simp [openAPISegment, wireParamOfSegment, pathKeyOfSegment,
          List.getLast?_concat, List.dropLast_concat]
      · have hcb : c0 ≠ '\x7b' := by simpa using hbseg
        show wireParamOfSegment (openAPISegment (c0 :: nm))
          = pathKeyOfSegment (c0 :: nm)
        simp only [openAPISegment, if_neg hc, wireParamOfSegment,
          pathKeyOfSegment, if_neg hcb]
  · intro seg hcolon
    cases seg with
    | nil => rfl
    | cons c0 nm =>
      have hc : ¬ c0 = ':' := by simpa using hcolon
      simp [openAPISegment, hc]

/-- C7 witness: the wire-format properties instantiated at the
two-parameter template of the claim. -/
theorem toOpenAPIPath_wire_format_witness :
    splitSegments (toOpenAPIPath "/api/users/:userId/posts/:postId")
      = (splitSegments "/api/users/:userId/posts/:postId").map openAPISegment ∧
    wireParamNames (toOpenAPIPath "/api/users/:userId/posts/:postId")
      = getKeysFromPathPattern "/api/users/:userId/posts/:postId" ∧
    toOpenAPIPath "/api/users/:userId/posts/:postId"
      = "/api/users/\x7buserId\x7d/posts/\x7bpostId\x7d" :=
  ⟨(toOpenAPIPath_wire_format "/api/users/:userId/posts/:postId" (by decide)).1,
   (toOpenAPIPath_wire_format "/api/users/:userId/posts/:postId" (by decide)).2.1,
   (toOpenAPIPath_wire_format "/api/users/:userId/posts/:postId"
      (by decide)).2.2.2.1⟩

end Clover
